import Mathlib

/-!
Shallow embedding of the paramsmap parameter-discovery scanner
(`src/utils.go`, lines 222-627), covering the response comparator, the
baseline consistency check, chunk partitioning, the chunk filter, the
bisection resolver and the top-level `DiscoverParams` driver.

Modelling conventions:
* Response bodies are byte lists (`List Nat`); Go `len` of a body is the
  list length.
* Go `int` fields (status code, reflection count, chunk index) are `Int`
  where signedness matters and `Nat` where the Go value is manifestly a
  count.
* Go `float64` similarity arithmetic is modelled exactly over `ℚ`.
* The external diff library (`diffmatchpatch`), which supplies the edit
  distance used by `computeSimilarity`, is abstracted as a function
  parameter `ed`.
* The network and randomness effects of `makeRequest` are abstracted as
  a probe oracle `Nat → List String → ResponseData`: the response to the
  n-th HTTP request of the scan, as a function of the injected parameter
  names (the fresh random values chosen by `generateParams` are folded
  into the oracle).  The process-wide `totalRequests` counter is
  threaded explicitly; concurrent goroutines are sequentialised in
  program order.
-/

/-- Embeds the Go struct `ResponseData` (body bytes, HTTP status code,
number of injected values reflected in the body). -/
structure ResponseData where
  Body : List Nat
  StatusCode : Int
  Reflections : Int
deriving DecidableEq, Repr

/-- Embeds `computeSimilarity` (utils.go:605-627): similarity of two
bodies is `1 - distance / maxLen`, where `distance` is the edit distance
reported by the external diff library (abstracted as `ed`) and `maxLen`
the larger body length; when `maxLen = 0` the similarity is `1.0` by
convention.  Go `float64` arithmetic is modelled exactly in `ℚ`. -/
def computeSimilarity (ed : List Nat → List Nat → Nat) (aBody bBody : List Nat) : ℚ :=
  let distance := ed aBody bBody
  let maxLen := if aBody.length < bBody.length then bBody.length else aBody.length
  if maxLen = 0 then 1
  else 1 - (distance : ℚ) / (maxLen : ℚ)

/-- Embeds `responsesAreSimilar` (utils.go:552-562): status codes and
reflection counts must match and the similarity score must reach the
`0.9` threshold; the score is computed only when the body lengths
differ, otherwise it is `1.0`. -/
def responsesAreSimilar (ed : List Nat → List Nat → Nat) (a b : ResponseData) : Bool :=
  let similarityThreshold : ℚ := mkRat 9 10
  let similarity : ℚ :=
    if a.Body.length ≠ b.Body.length then computeSimilarity ed a.Body b.Body else 1
  a.StatusCode == b.StatusCode &&
    a.Reflections == b.Reflections &&
    decide (similarityThreshold ≤ similarity)

/-- Embeds `responsesAreEqual` (utils.go:564-568): status codes,
reflection counts and body lengths must match exactly. -/
def responsesAreEqual (a b : ResponseData) : Bool :=
  a.StatusCode == b.StatusCode &&
    a.Reflections == b.Reflections &&
    a.Body.length == b.Body.length

/-- Embeds `responseChanged` (utils.go:541-550): the loop returns
`false` as soon as one baseline compares equal (in equal-check mode) or
similar (otherwise) to the new response; if no baseline does, the
response is a significant change. -/
def responseChanged (ed : List Nat → List Nat → Nat) (baselineResponses : List ResponseData)
    (nw : ResponseData) (equalCheck : Bool) : Bool :=
  match baselineResponses with
  | [] => true
  | baseline :: rest =>
    if equalCheck && responsesAreEqual baseline nw then false
    else if !equalCheck && responsesAreSimilar ed baseline nw then false
    else responseChanged ed rest nw equalCheck

/-- Embeds `baselineResponsesAreConsistent` (utils.go:594-603): the
double loop over ordered index pairs `i < j` checks `compareFunc` on
every ordered pair, short-circuiting on the first failure.  The
recursion checks the head against every later element, then the tail:
the same ordered pairs in the same order. -/
def baselineResponsesAreConsistent (baselineResponses : List ResponseData)
    (compareFunc : ResponseData → ResponseData → Bool) : Bool :=
  match baselineResponses with
  | [] => true
  | r :: rest => rest.all (compareFunc r) && baselineResponsesAreConsistent rest compareFunc

/-- Result of running a Go function that can terminate normally or by a
run-time panic (slice bounds out of range). -/
inductive GoResult (α : Type) where
  | ok (val : α) : GoResult α
  | outOfRange : GoResult α
deriving DecidableEq, Repr

/-- Embeds the loop body of `chunkParams` (utils.go:489-499) with an
explicit fuel to observe non-termination.  The index `i` and `chunkSize`
are Go `int`s (`Int`): each iteration with `i < len(params)` computes
`end := i + chunkSize`, clamps it to `len(params)`, takes the slice
`params[i:end]` (a run-time panic unless `0 ≤ i ≤ end`), and advances
`i` by `chunkSize`.  `none` means the fuel ran out before the loop
exited. -/
def chunkLoop (params : List String) (chunkSize : Int) :
    Nat → Int → Option (GoResult (List (List String)))
  | 0, _ => none
  | fuel + 1, i =>
    if i < (params.length : Int) then
      let e0 := i + chunkSize
      let endIdx := if (params.length : Int) < e0 then (params.length : Int) else e0
      if 0 ≤ i ∧ i ≤ endIdx then
        match chunkLoop params chunkSize fuel (i + chunkSize) with
        | none => none
        | some GoResult.outOfRange => some GoResult.outOfRange
        | some (GoResult.ok rest) =>
          some (GoResult.ok (((params.drop i.toNat).take (endIdx - i).toNat) :: rest))
      else some GoResult.outOfRange
    else some (GoResult.ok [])

/-- Embeds `chunkParams` (utils.go:489-499): runs the loop from `i = 0`
with fuel `len(params) + 1`, which suffices for every positive
`chunkSize`. -/
def chunkParams (params : List String) (chunkSize : Int) :
    Option (GoResult (List (List String))) :=
  chunkLoop params chunkSize (params.length + 1) 0

/-- Pure rendering of `chunkParams` for a positive chunk size: repeatedly
take `chunkSize` elements off the front.  Advancing the Go loop index by
`chunkSize` is dropping `chunkSize` elements; the clamped slice
`params[i:end]` is `take chunkSize` of the remainder.  The `chunkSize = 0`
branch is junk (the Go loop does not terminate there, see
`chunkParams_termination_spec`). -/
def chunkParamsN : List String → Nat → List (List String)
  | [], _ => []
  | _ :: _, 0 => []
  | p :: ps, c + 1 => (p :: ps).take (c + 1) :: chunkParamsN ((p :: ps).drop (c + 1)) (c + 1)
termination_by l _ => l.length
decreasing_by simp; omega

/-- Embeds `countReflections` (utils.go:422-432): the number of injected
values that occur verbatim as a byte substring of the body.  An injected
parameter is a (name, value-bytes) pair; `generateParams` sets exactly
one value per name. -/
def countReflections (params : List (String × List Nat)) (body : List Nat) : Int :=
  params.foldl (fun count p => if p.2 <:+: body then count + 1 else count) 0

/-- Outcome of the external effects of one `makeRequest` call: the URL
parse can fail, the transport can fail, or the server answers with a
status code and a body. -/
inductive ProbeOutcome where
  | urlParseError : ProbeOutcome
  | networkError : ProbeOutcome
  | success (statusCode : Int) (body : List Nat) : ProbeOutcome

/-- Embeds the result paths of `makeRequest` (utils.go:364-420) with the
network abstracted as `outcome`: a URL-parse error or a failed
`client.Do` returns the zero `ResponseData{}` (empty body, status `0`,
reflections `0`); on success the body is read and the reflections of the
injected values are counted. -/
def makeRequest (outcome : ProbeOutcome) (params : List (String × List Nat)) : ResponseData :=
  match outcome with
  | ProbeOutcome.urlParseError => { Body := [], StatusCode := 0, Reflections := 0 }
  | ProbeOutcome.networkError => { Body := [], StatusCode := 0, Reflections := 0 }
  | ProbeOutcome.success status body =>
    { Body := body, StatusCode := status, Reflections := countReflections params body }

/-- The zero-valued `ResponseData{}` produced by a failed probe. -/
def zeroObservation : ResponseData := { Body := [], StatusCode := 0, Reflections := 0 }

/-- Embeds `InitialResponses` (utils.go:311-315). -/
structure InitialResponses where
  Responses : List ResponseData
  SameBody : Bool
  AreConsistent : Bool
deriving DecidableEq, Repr

/-- A probe oracle: the observation returned by the n-th `makeRequest`
call of the scan, given the injected parameter names.  It folds together
the network, the server and the fresh random values that
`generateParams` attaches to the names. -/
abbrev Probe := Nat → List String → ResponseData

/-- Embeds `numBaselines` (utils.go:245). -/
def numBaselines : Nat := 3

/-- The baseline loop of `makeInitialRequests` (utils.go:350-355): `n`
parameter-less probes issued sequentially, consuming one request index
each. -/
def makeBaselines (probe : Probe) (ctr : Nat) : Nat → List ResponseData
  | 0 => []
  | n + 1 => probe ctr [] :: makeBaselines probe (ctr + 1) n

/-- Embeds `makeInitialRequests` (utils.go:350-362): issues
`numBaselines` parameter-less probes, then derives `SameBody` (pairwise
equal) and `AreConsistent` (pairwise similar) from them.  Returns the
updated request counter alongside. -/
def makeInitialRequests (ed : List Nat → List Nat → Nat) (probe : Probe) (ctr : Nat) :
    InitialResponses × Nat :=
  let baselineResponses := makeBaselines probe ctr numBaselines
  ({ Responses := baselineResponses,
     SameBody := baselineResponsesAreConsistent baselineResponses responsesAreEqual,
     AreConsistent :=
       baselineResponsesAreConsistent baselineResponses (responsesAreSimilar ed) },
   ctr + numBaselines)

/-- Embeds `filterParts` (utils.go:501-522): every chunk is probed once
with an injection covering its parameters, and the chunks whose
observation is classified "changed" against the baselines survive.  The
concurrent goroutines are sequentialised in program order, each
consuming one request index. -/
def filterParts (ed : List Nat → List Nat → Nat) (probe : Probe) (parts : List (List String))
    (initialResponses : InitialResponses) (ctr : Nat) : List (List String) × Nat :=
  match parts with
  | [] => ([], ctr)
  | part :: rest =>
    let response := probe ctr part
    let s := filterParts ed probe rest initialResponses (ctr + 1)
    (if responseChanged ed initialResponses.Responses response initialResponses.SameBody
     then part :: s.1 else s.1,
     s.2)

/-- Embeds `recursiveFilter` (utils.go:570-592): a single candidate is
returned as-is; otherwise the list splits at `mid = len/2`, each half is
injected and probed once (left at the current request index, right at
the next), and the recursion descends into each half whose observation
is classified "changed".  The `params = []` guard is a deviation from
the source: Go probes the two empty halves and can recurse on `[]`
without progress, but the pipeline only ever calls this function on
non-empty chunks (see `chunkParams_partition_spec`). -/
def recursiveFilter (ed : List Nat → List Nat → Nat) (probe : Probe) (params : List String)
    (initialResponses : InitialResponses) (ctr : Nat) : List String × Nat :=
  if params.length = 1 then (params, ctr)
  else if params.length = 0 then (params, ctr)
  else
    let mid := params.length / 2
    let left := params.take mid
    let right := params.drop mid
    let leftResponse := probe ctr left
    let rightResponse := probe (ctr + 1) right
    let s1 :=
      if responseChanged ed initialResponses.Responses leftResponse initialResponses.SameBody
      then recursiveFilter ed probe left initialResponses (ctr + 2) else ([], ctr + 2)
    let s2 :=
      if responseChanged ed initialResponses.Responses rightResponse initialResponses.SameBody
      then recursiveFilter ed probe right initialResponses s1.2 else ([], s1.2)
    (s1.1 ++ s2.1, s2.2)
termination_by params.length
decreasing_by
  · simp [List.length_take]
    omega
  · simp [List.length_drop]
    omega

/-- The merge step of `discoverValidParams` (utils.go:473-481): a
parameter enters the shared result list only if its name is not already
present. -/
def insertParam (validParams : List String) (param : String) : List String :=
  if param ∈ validParams then validParams else validParams ++ [param]

/-- Embeds `discoverValidParams` (utils.go:460-487): chunk the
vocabulary, keep the chunks that provoke change, resolve each surviving
chunk with `recursiveFilter`, and merge the emitted names with
deduplication.  The concurrent per-chunk goroutines are sequentialised
in program order. -/
def discoverValidParams (ed : List Nat → List Nat → Nat) (probe : Probe) (params : List String)
    (initialResponses : InitialResponses) (chunkSize : Nat) (ctr : Nat) : List String × Nat :=
  let parts := chunkParamsN params chunkSize
  let s := filterParts ed probe parts initialResponses ctr
  s.1.foldl
    (fun acc part =>
      let r := recursiveFilter ed probe part initialResponses acc.2
      (r.1.foldl insertParam acc.1, r.2))
    ([], s.2)

/-- Embeds `Results` (main.go / utils.go:273-278). -/
structure Results where
  Params : List String
  FormParams : List String
  Aborted : Bool
  AbortReason : String
deriving DecidableEq, Repr

/-- Embeds `DiscoverParams` (utils.go:280-303): take the baselines;
abort with an empty result if they are not loosely consistent; otherwise
extract form parameters from the first baseline body (the extractor is
an external collaborator, abstracted as `extractFormParams`), append
them to the vocabulary and run the chunked discovery. -/
def DiscoverParams (ed : List Nat → List Nat → Nat) (probe : Probe)
    (extractFormParams : List Nat → List String) (params : List String) (chunkSize : Nat) :
    Results × Nat :=
  let s := makeInitialRequests ed probe 0
  let initialResponses := s.1
  if !initialResponses.AreConsistent then
    ({ Params := [], FormParams := [], Aborted := true,
       AbortReason := "Baseline responses differ significantly" }, s.2)
  else
    let formsParams := extractFormParams (initialResponses.Responses.headD zeroObservation).Body
    let params2 := params ++ formsParams
    let r := discoverValidParams ed probe params2 initialResponses chunkSize s.2
    ({ Params := r.1, FormParams := formsParams, Aborted := false, AbortReason := "" }, r.2)

/-- A trivial edit-distance oracle. -/
def edZero : List Nat → List Nat → Nat := fun _ _ => 0

/-- A probe oracle whose first (baseline) response has status `200` and
all later ones status `404`: the baselines are not loosely consistent. -/
def probeInconsistent : Probe := fun n _ =>
  if n = 0 then { Body := [], StatusCode := 200, Reflections := 0 }
  else { Body := [], StatusCode := 404, Reflections := 0 }

/-- A probe oracle that always answers the same stable response. -/
def probeStable : Probe := fun _ _ => { Body := [1, 2], StatusCode := 200, Reflections := 0 }

/-- A probe oracle that always answers with a response that differs from
`probeStable`'s baselines in status code. -/
def probeAlwaysChanged : Probe := fun _ _ => { Body := [5], StatusCode := 500, Reflections := 0 }

/-- A form extractor returning no fields. -/
def extractNone : List Nat → List String := fun _ => []

/-- An ordinary stable baseline observation (nonzero status code). -/
def baseOK : ResponseData := { Body := [1], StatusCode := 200, Reflections := 0 }

/-- Provenance of a name through the bisection resolver: starting from a
candidate list, a name is isolated when it is the sole member of the
list, or when the half containing it provoked a "changed" classification
at this level and the name is isolated within that half.  The request
index of the right half's descent is existential (`c2`), since it
depends on how many probes the left descent consumed. -/
inductive Isolated (ed : List Nat → List Nat → Nat) (probe : Probe) (ir : InitialResponses) :
    List String → Nat → String → Prop where
  | single (p : String) (ctr : Nat) : Isolated ed probe ir [p] ctr p
  | goLeft (params : List String) (ctr : Nat) (p : String)
      (hlen : 2 ≤ params.length)
      (hch : responseChanged ed ir.Responses (probe ctr (params.take (params.length / 2)))
        ir.SameBody = true)
      (hrec : Isolated ed probe ir (params.take (params.length / 2)) (ctr + 2) p) :
      Isolated ed probe ir params ctr p
  | goRight (params : List String) (ctr c2 : Nat) (p : String)
      (hlen : 2 ≤ params.length)
      (hch : responseChanged ed ir.Responses (probe (ctr + 1) (params.drop (params.length / 2)))
        ir.SameBody = true)
      (hrec : Isolated ed probe ir (params.drop (params.length / 2)) c2 p) :
      Isolated ed probe ir params ctr p

/-! ### Theorems -/

theorem mkRat_nine_tenths : mkRat 9 10 = (9 : ℚ) / 10 := by
  norm_num [mkRat]

theorem responsesAreEqual_iff (a b : ResponseData) :
    responsesAreEqual a b = true ↔
      a.StatusCode = b.StatusCode ∧ a.Reflections = b.Reflections ∧
        a.Body.length = b.Body.length := by
  simp [responsesAreEqual, Bool.and_eq_true, beq_iff_eq, and_assoc]

theorem responsesAreSimilar_iff (ed : List Nat → List Nat → Nat) (a b : ResponseData) :
    responsesAreSimilar ed a b = true ↔
      a.StatusCode = b.StatusCode ∧ a.Reflections = b.Reflections ∧
        (9 / 10 : ℚ) ≤
          (if a.Body.length = b.Body.length then 1 else computeSimilarity ed a.Body b.Body) := by
  by_cases h : a.Body.length = b.Body.length <;>
    simp [responsesAreSimilar, mkRat_nine_tenths, Bool.and_eq_true, beq_iff_eq, and_assoc, h]

theorem responsesAreSimilar_statusCode {ed : List Nat → List Nat → Nat} {a b : ResponseData}
    (h : responsesAreSimilar ed a b = true) :
    a.StatusCode = b.StatusCode ∧ a.Reflections = b.Reflections := by
  have := (responsesAreSimilar_iff ed a b).1 h
  exact ⟨this.1, this.2.1⟩

theorem baselineResponsesAreConsistent_iff (rs : List ResponseData)
    (f : ResponseData → ResponseData → Bool) :
    baselineResponsesAreConsistent rs f = true ↔
      List.Pairwise (fun a b => f a b = true) rs := by
  induction rs with
  | nil => simp [baselineResponsesAreConsistent]
  | cons r rest ih =>
    simp [baselineResponsesAreConsistent, Bool.and_eq_true, List.all_eq_true, ih,
      List.pairwise_cons]

theorem responseChanged_eq_false_of_mem (ed : List Nat → List Nat → Nat)
    {bs : List ResponseData} {nw : ResponseData} {eq : Bool} {b : ResponseData}
    (hb : b ∈ bs)
    (h : (if eq then responsesAreEqual b nw else responsesAreSimilar ed b nw) = true) :
    responseChanged ed bs nw eq = false := by
  induction bs with
  | nil => cases hb
  | cons hd rest ih =>
    rcases List.mem_cons.1 hb with rfl | hmem
    · cases eq <;> simp_all [responseChanged]
    · cases eq <;>
        [ (by_cases hs : responsesAreSimilar ed hd nw = true) ;
          (by_cases he : responsesAreEqual hd nw = true) ] <;>
        simp_all [responseChanged]

/-- C3: a candidate observation is classified "changed" iff the selected
comparison (`responsesAreEqual` in equal-check mode, `responsesAreSimilar`
otherwise) fails against every single baseline entry; if even one
baseline compares equal/similar, the classification is "not changed". -/
theorem responseChanged_iff_differs_from_all_baselines (ed : List Nat → List Nat → Nat)
    (bs : List ResponseData) (nw : ResponseData) (eq : Bool) :
    responseChanged ed bs nw eq = true ↔
      ∀ b ∈ bs, (if eq then responsesAreEqual b nw else responsesAreSimilar ed b nw) = false := by
  induction bs with
  | nil => simp [responseChanged]
  | cons hd rest ih =>
    cases eq <;>
      [ (by_cases hs : responsesAreSimilar ed hd nw = true) ;
        (by_cases he : responsesAreEqual hd nw = true) ] <;>
      simp_all [responseChanged]

/-- C5: `responsesAreEqual` holds iff status codes, reflection counts
and body lengths match exactly (body contents are not compared), and it
is reflexive and symmetric. -/
theorem responsesAreEqual_spec (a b : ResponseData) :
    (responsesAreEqual a b = true ↔
      a.StatusCode = b.StatusCode ∧ a.Reflections = b.Reflections ∧
        a.Body.length = b.Body.length) ∧
    responsesAreEqual a a = true ∧
    responsesAreEqual a b = responsesAreEqual b a := by
  refine ⟨responsesAreEqual_iff a b, ?_, ?_⟩
  · simp [responsesAreEqual]
  · rw [Bool.eq_iff_iff, responsesAreEqual_iff, responsesAreEqual_iff]
    constructor
    · rintro ⟨x, y, z⟩; exact ⟨x.symm, y.symm, z.symm⟩
    · rintro ⟨x, y, z⟩; exact ⟨x.symm, y.symm, z.symm⟩

/-- C6: `responsesAreSimilar` holds iff status codes match, reflection
counts match, and the similarity score is at least `0.9`, where the
score is `1` when the body lengths are equal (in which case the edit
distance is never consulted: the result is the same for every `ed`),
is `1` by convention when both bodies are empty, and is
`1 - editDistance / max(len a, len b)` when the lengths differ. -/
theorem responsesAreSimilar_spec (ed : List Nat → List Nat → Nat) (a b : ResponseData) :
    (responsesAreSimilar ed a b = true ↔
      a.StatusCode = b.StatusCode ∧ a.Reflections = b.Reflections ∧
        (9 / 10 : ℚ) ≤
          (if a.Body.length = b.Body.length then 1
           else computeSimilarity ed a.Body b.Body)) ∧
    (a.Body.length = b.Body.length →
      ∀ ed' : List Nat → List Nat → Nat,
        responsesAreSimilar ed' a b = responsesAreSimilar ed a b) ∧
    (max a.Body.length b.Body.length = 0 → computeSimilarity ed a.Body b.Body = 1) ∧
    (a.Body.length ≠ b.Body.length →
      computeSimilarity ed a.Body b.Body =
        1 - (ed a.Body b.Body : ℚ) / (max a.Body.length b.Body.length : ℚ)) := by
  refine ⟨responsesAreSimilar_iff ed a b, ?_, ?_, ?_⟩
  · intro h ed'
    simp [responsesAreSimilar, h]
  · intro h
    have ha : a.Body.length = 0 := Nat.le_zero.1 (h ▸ Nat.le_max_left _ _)
    have hb : b.Body.length = 0 := Nat.le_zero.1 (h ▸ Nat.le_max_right _ _)
    simp [computeSimilarity, ha, hb]
  · intro h
    have hmax : (if a.Body.length < b.Body.length then b.Body.length else a.Body.length) =
        max a.Body.length b.Body.length := by
      rcases Nat.lt_or_ge a.Body.length b.Body.length with hlt | hge
      · simp [hlt, Nat.max_eq_right (Nat.le_of_lt hlt)]
      · simp [Nat.not_lt.2 hge, Nat.max_eq_left hge]
    have hne : max a.Body.length b.Body.length ≠ 0 := by
      rcases Nat.lt_or_ge a.Body.length b.Body.length with hlt | hge
      · have : 0 < b.Body.length := Nat.pos_of_ne_zero (by omega)
        omega
      · have : a.Body.length ≠ b.Body.length := h
        omega
    simp only [computeSimilarity, hmax, if_neg hne, Nat.cast_max]

theorem chunkParamsN_nil (c : Nat) : chunkParamsN [] c = [] := by
  simp [chunkParamsN]

theorem chunkParamsN_cons (x : String) (xs : List String) (c : Nat) :
    chunkParamsN (x :: xs) (c + 1) =
      (x :: xs).take (c + 1) :: chunkParamsN ((x :: xs).drop (c + 1)) (c + 1) := by
  simp [chunkParamsN]

theorem chunkParamsN_step (l : List String) (c : Nat) (hc : 1 ≤ c) (hl : l ≠ []) :
    chunkParamsN l c = l.take c :: chunkParamsN (l.drop c) c := by
  obtain ⟨c', rfl⟩ : ∃ c', c = c' + 1 := ⟨c - 1, by omega⟩
  rcases l with _ | ⟨x, xs⟩
  · exact absurd rfl hl
  · exact chunkParamsN_cons x xs c'

theorem chunkLoop_eq_chunkParamsN (c : Nat) (hc : 1 ≤ c) (l : List String) :
    ∀ (fuel : Nat) (i : Nat), l.length - i < fuel →
      chunkLoop l (c : Int) fuel (i : Int) =
        some (GoResult.ok (chunkParamsN (l.drop i) c)) := by
  intro fuel
  induction fuel with
  | zero => intro i h; omega
  | succ fuel ih =>
    intro i h
    by_cases hi : (i : Int) < (l.length : Int)
    · have hilen : i < l.length := by exact_mod_cast hi
      rw [chunkLoop]
      simp only [hi, if_true]
      have he0 : (0 : Int) ≤ (i : Int) ∧ (i : Int) ≤
          (if (l.length : Int) < (i : Int) + (c : Int) then (l.length : Int)
           else (i : Int) + (c : Int)) := by
        by_cases hcl : (l.length : Int) < (i : Int) + (c : Int)
        · rw [if_pos hcl]; omega
        · rw [if_neg hcl]; omega
      rw [if_pos he0]
      have hrec : chunkLoop l (c : Int) fuel ((i : Int) + (c : Int)) =
          some (GoResult.ok (chunkParamsN (l.drop (i + c)) c)) := by
        have hcast : (i : Int) + (c : Int) = ((i + c : Nat) : Int) := by push_cast; ring
        rw [hcast]
        exact ih (i + c) (by omega)
      simp only [hrec]
      have hslice :
          (l.drop ((i : Int)).toNat).take
            (((if (l.length : Int) < (i : Int) + (c : Int) then (l.length : Int)
               else (i : Int) + (c : Int)) - (i : Int)).toNat) = (l.drop i).take c := by
        by_cases hcl : (l.length : Int) < (i : Int) + (c : Int)
        · have hlen : l.length < i + c := by exact_mod_cast hcl
          rw [if_pos hcl]
          have h1 : (((l.length : Int) - (i : Int)).toNat) = l.length - i := by omega
          rw [Int.toNat_natCast, h1]
          have h2 : (l.drop i).length = l.length - i := List.length_drop i l
          rw [List.take_of_length_le (by omega), List.take_of_length_le (by omega)]
        · have hlen : ¬ l.length < i + c := fun hx => hcl (by exact_mod_cast hx)
          rw [if_neg hcl]
          have h1 : (((i : Int) + (c : Int) - (i : Int)).toNat) = c := by omega
          rw [Int.toNat_natCast, h1]
      rw [hslice]
      have hdrop : (l.drop i).drop c = l.drop (i + c) := by
        rw [List.drop_drop]
      rw [chunkParamsN_step (l.drop i) c hc
        (by
          intro hx
          have h2 : (l.drop i).length = l.length - i := List.length_drop i l
          rw [hx] at h2
          simp at h2
          omega), hdrop]
    · have hilen : l.length ≤ i := by
        have : ¬ i < l.length := fun hx => hi (by exact_mod_cast hx)
        omega
      rw [chunkLoop]
      simp only [hi, if_false]
      rw [List.drop_eq_nil_of_le hilen, chunkParamsN_nil]

theorem chunkParamsN_props (c : Nat) (hc : 1 ≤ c) :
    ∀ (n : Nat) (l : List String), l.length ≤ n →
      (∀ ch ∈ chunkParamsN l c, 1 ≤ ch.length ∧ ch.length ≤ c) ∧
      (chunkParamsN l c).flatten = l ∧
      (∀ ch ∈ (chunkParamsN l c).dropLast, ch.length = c) := by
  intro n
  induction n with
  | zero =>
    intro l hl
    have : l = [] := List.eq_nil_of_length_eq_zero (by omega)
    subst this
    refine ⟨?_, ?_, ?_⟩ <;> simp [chunkParamsN_nil]
  | succ n ihn =>
    intro l hl
    rcases eq_or_ne l [] with rfl | hne
    · refine ⟨?_, ?_, ?_⟩ <;> simp [chunkParamsN_nil]
    · have hlpos : 0 < l.length := List.length_pos.2 hne
      have hstep := chunkParamsN_step l c hc hne
      have hdroplen : (l.drop c).length ≤ n := by
        rw [List.length_drop]
        omega
      obtain ⟨ih1, ih2, ih3⟩ := ihn (l.drop c) hdroplen
      refine ⟨?_, ?_, ?_⟩
      · intro ch hch
        rw [hstep] at hch
        rcases List.mem_cons.1 hch with rfl | hmem
        · rw [List.length_take]
          omega
        · exact ih1 ch hmem
      · rw [hstep, List.flatten_cons, ih2, List.take_append_drop]
      · intro ch hch
        rw [hstep] at hch
        rcases hrest : chunkParamsN (l.drop c) c with _ | ⟨r, rs⟩
        · rw [hrest] at hch
          simp at hch
        · rw [hrest, List.dropLast_cons₂] at hch
          rcases List.mem_cons.1 hch with rfl | hmem
          · have hdropne : l.drop c ≠ [] := by
              intro hx
              rw [hx, chunkParamsN_nil] at hrest
              cases hrest
            have hlen : 0 < (l.drop c).length := List.length_pos.2 hdropne
            rw [List.length_drop] at hlen
            rw [List.length_take]
            omega
          · rw [← hrest] at hmem
            exact ih3 ch hmem

/-- C9: for every vocabulary list and every `chunkSize ≥ 1`,
`chunkParams` terminates normally and returns contiguous chunks: every
chunk is nonempty and at most `chunkSize` long, their concatenation in
order is the input list, and every chunk except possibly the last has
length exactly `chunkSize`. -/
theorem chunkParams_partition_spec (params : List String) (c : Nat) (hc : 1 ≤ c) :
    chunkParams params (c : Int) = some (GoResult.ok (chunkParamsN params c)) ∧
    (∀ ch ∈ chunkParamsN params c, 1 ≤ ch.length ∧ ch.length ≤ c) ∧
    (chunkParamsN params c).flatten = params ∧
    (∀ ch ∈ (chunkParamsN params c).dropLast, ch.length = c) := by
  obtain ⟨h1, h2, h3⟩ := chunkParamsN_props c hc params.length params (le_refl _)
  refine ⟨?_, h1, h2, h3⟩
  have h0 := chunkLoop_eq_chunkParamsN c hc params (params.length + 1) 0 (by omega)
  rw [chunkParams]
  simpa using h0

/-- Witness for C9 at a concrete input. -/
theorem chunkParams_partition_spec_witness :
    chunkParams ["a", "b", "c"] ((2 : Nat) : Int) =
        some (GoResult.ok (chunkParamsN ["a", "b", "c"] 2)) ∧
    (∀ ch ∈ chunkParamsN ["a", "b", "c"] 2, 1 ≤ ch.length ∧ ch.length ≤ 2) ∧
    (chunkParamsN ["a", "b", "c"] 2).flatten = ["a", "b", "c"] ∧
    (∀ ch ∈ (chunkParamsN ["a", "b", "c"] 2).dropLast, ch.length = 2) :=
  chunkParams_partition_spec ["a", "b", "c"] 2 (by decide)

/-- Counterexample to C10 as stated: for the negative chunk size `-1`
and the non-empty list `["a"]` the loop does terminate — on the first
iteration `end = i + chunkSize = -1 < i`, so the slice expression
`params[i:end]` aborts the function with a run-time panic instead of
looping forever. -/
theorem chunkParams_neg_chunkSize_terminates :
    chunkParams ["a"] (-1) = some GoResult.outOfRange ∧
    ¬ (∀ fuel : Nat, chunkLoop ["a"] (-1) fuel 0 = none) := by
  constructor
  · decide
  · intro h
    exact absurd (h 2) (by decide)

/-- C10 (amended): `chunkParams` terminates for every list when
`chunkSize ≥ 1`; for `chunkSize = 0` and a non-empty list the loop index
never advances, so no amount of fuel makes the loop exit (the function
does not terminate); for `chunkSize < 0` and a non-empty list the first
slice expression `params[i:end]` has `end < i` and the function
terminates abnormally with a run-time panic. -/
theorem chunkParams_termination_spec (params : List String) (c : Int) :
    (1 ≤ c → ∃ cs, chunkParams params c = some (GoResult.ok cs)) ∧
    (params ≠ [] → ∀ fuel : Nat, chunkLoop params 0 fuel 0 = none) ∧
    (params ≠ [] → c < 0 → chunkParams params c = some GoResult.outOfRange) := by
  refine ⟨?_, ?_, ?_⟩
  · intro hc
    obtain ⟨cn, rfl⟩ : ∃ cn : Nat, c = (cn : Int) := ⟨c.toNat, by omega⟩
    have hc1 : 1 ≤ cn := by exact_mod_cast hc
    refine ⟨chunkParamsN params cn, ?_⟩
    rw [chunkParams]
    have h0 := chunkLoop_eq_chunkParamsN cn hc1 params (params.length + 1) 0 (by omega)
    simpa using h0
  · intro hne fuel
    induction fuel with
    | zero => rfl
    | succ f ihf =>
      have hlen : 0 < params.length := List.length_pos.2 hne
      have h0 : (0 : Int) < (params.length : Int) := by exact_mod_cast hlen
      rw [chunkLoop, if_pos h0]
      simp only [show (0 : Int) + (0 : Int) = 0 from rfl]
      rw [if_neg (show ¬ ((params.length : Int) < 0) by omega)]
      rw [if_pos (show (0 : Int) ≤ 0 ∧ (0 : Int) ≤ 0 from ⟨le_refl 0, le_refl 0⟩)]
      rw [ihf]
  · intro hne hneg
    have hlen : 0 < params.length := List.length_pos.2 hne
    have h0 : (0 : Int) < (params.length : Int) := by exact_mod_cast hlen
    rw [chunkParams, chunkLoop, if_pos h0]
    simp only [Int.zero_add]
    rw [if_neg (show ¬ ((params.length : Int) < c) by omega)]
    rw [if_neg (show ¬ ((0 : Int) ≤ 0 ∧ (0 : Int) ≤ c) from fun hx => absurd hx.2 (by omega))]

/-- Witness for C10 (amended) at concrete inputs: a positive chunk size
terminates normally, chunk size `0` exhausts any fuel, and a negative
chunk size panics. -/
theorem chunkParams_termination_spec_witness :
    (∃ cs, chunkParams ["a", "b", "c"] 2 = some (GoResult.ok cs)) ∧
    (∀ fuel : Nat, chunkLoop ["x"] 0 fuel 0 = none) ∧
    chunkParams ["y"] (-2) = some GoResult.outOfRange :=
  ⟨(chunkParams_termination_spec ["a", "b", "c"] 2).1 (by decide),
   (chunkParams_termination_spec ["x"] 0).2.1 (by decide),
   (chunkParams_termination_spec ["y"] (-2)).2.2 (by decide) (by decide)⟩

/-- Counterexample to C1 as stated: the abort reason recorded by
`DiscoverParams` is the capitalised string
"Baseline responses differ significantly", not
"baseline responses differ significantly" as the claim quotes it. -/
theorem discoverParams_abort_reason_counterexample :
    (makeInitialRequests edZero probeInconsistent 0).1.AreConsistent = false ∧
    (DiscoverParams edZero probeInconsistent extractNone [] 1).1.Aborted = true ∧
    (DiscoverParams edZero probeInconsistent extractNone [] 1).1.AbortReason ≠
      "baseline responses differ significantly" := by
  refine ⟨by decide, by decide, by decide⟩

/-- C1 (amended): for every baseline set that is not loosely consistent,
`DiscoverParams` aborts with reason
"Baseline responses differ significantly" (capital B), empty discovered
and form parameter lists, and the request counter stays at the
`numBaselines` baseline probes: no form extraction, chunk filtering or
bisection probing happens. -/
theorem discoverParams_aborts_on_inconsistent_baselines (ed : List Nat → List Nat → Nat)
    (probe : Probe) (extractFormParams : List Nat → List String) (params : List String)
    (chunkSize : Nat)
    (h : (makeInitialRequests ed probe 0).1.AreConsistent = false) :
    DiscoverParams ed probe extractFormParams params chunkSize =
      ({ Params := [], FormParams := [], Aborted := true,
         AbortReason := "Baseline responses differ significantly" }, numBaselines) := by
  rw [DiscoverParams]
  simp only [h, Bool.not_false, if_true]
  simp [makeInitialRequests]

/-- Witness for C1 (amended) at a concrete inconsistent probe. -/
theorem discoverParams_aborts_on_inconsistent_baselines_witness :
    (makeInitialRequests edZero probeInconsistent 0).1.AreConsistent = false ∧
    DiscoverParams edZero probeInconsistent extractNone ["id"] 2 =
      ({ Params := [], FormParams := [], Aborted := true,
         AbortReason := "Baseline responses differ significantly" }, numBaselines) :=
  ⟨by decide,
   discoverParams_aborts_on_inconsistent_baselines edZero probeInconsistent extractNone
     ["id"] 2 (by decide)⟩

theorem responseChanged_true_of_all_fail (ed : List Nat → List Nat → Nat)
    (nw : ResponseData) (eq : Bool) :
    ∀ bs : List ResponseData,
      (∀ b ∈ bs, responsesAreEqual b nw = false ∧ responsesAreSimilar ed b nw = false) →
      responseChanged ed bs nw eq = true := by
  intro bs
  induction bs with
  | nil => intro _; rfl
  | cons b rest ih =>
    intro h
    obtain ⟨he, hs⟩ := h b (List.mem_cons_self b rest)
    have htail := ih fun x hx => h x (List.mem_cons_of_mem b hx)
    cases eq <;> simp [responseChanged, he, hs, htail]

/-- Counterexample to C2 as stated: take the loosely consistent baseline
set of three ordinary status-200 observations.  The zero-valued
observation of a failed probe is classified "changed" against it (in
both comparison modes), so the failed probe's chunk or half is flagged,
not dropped. -/
theorem failedProbe_classification_counterexample :
    baselineResponsesAreConsistent [baseOK, baseOK, baseOK] (responsesAreSimilar edZero) =
      true ∧
    responseChanged edZero [baseOK, baseOK, baseOK] zeroObservation true = true ∧
    responseChanged edZero [baseOK, baseOK, baseOK] zeroObservation false = true := by
  refine ⟨by decide, by decide, by decide⟩

/-- C2 (amended): a probe that fails with a network or URL-parse error
returns the zero-valued observation (empty body, status code `0`,
reflection count `0`), and whenever every baseline entry has a nonzero
status code — in particular for any real HTTP baseline — the zero-valued
observation is classified "changed" in both comparison modes, so the
failed probe's chunk or half is flagged for further probing rather than
dropped. -/
theorem failedProbe_zero_observation_flagged (ed : List Nat → List Nat → Nat)
    (ps : List (String × List Nat)) (bs : List ResponseData) (eq : Bool)
    (h : ∀ b ∈ bs, b.StatusCode ≠ 0) :
    makeRequest ProbeOutcome.urlParseError ps = zeroObservation ∧
    makeRequest ProbeOutcome.networkError ps = zeroObservation ∧
    responseChanged ed bs zeroObservation eq = true := by
  refine ⟨rfl, rfl, ?_⟩
  refine responseChanged_true_of_all_fail ed zeroObservation eq bs fun b hb => ⟨?_, ?_⟩
  · have hb0 : b.StatusCode ≠ 0 := h b hb
    by_contra hx
    rw [Bool.not_eq_false] at hx
    exact hb0 (((responsesAreEqual_iff b zeroObservation).1 hx).1.trans rfl)
  · have hb0 : b.StatusCode ≠ 0 := h b hb
    by_contra hx
    rw [Bool.not_eq_false] at hx
    exact hb0 ((responsesAreSimilar_statusCode hx).1.trans rfl)

/-- Witness for C2 (amended) at a concrete baseline set. -/
theorem failedProbe_zero_observation_flagged_witness :
    (∀ b ∈ [baseOK, baseOK, baseOK], b.StatusCode ≠ 0) ∧
    makeRequest ProbeOutcome.urlParseError [("id", [97])] = zeroObservation ∧
    makeRequest ProbeOutcome.networkError [("id", [97])] = zeroObservation ∧
    responseChanged edZero [baseOK, baseOK, baseOK] zeroObservation false = true :=
  ⟨by decide,
   failedProbe_zero_observation_flagged edZero [("id", [97])] [baseOK, baseOK, baseOK] false
     (by decide)⟩

theorem pairwise_equal_iff_pairwise_bodyLen (ed : List Nat → List Nat → Nat) :
    ∀ rs : List ResponseData,
      List.Pairwise (fun a b => responsesAreSimilar ed a b = true) rs →
      (List.Pairwise (fun a b => responsesAreEqual a b = true) rs ↔
        List.Pairwise (fun a b => a.Body.length = b.Body.length) rs) := by
  intro rs
  induction rs with
  | nil => intro _; simp
  | cons r rest ih =>
    intro hsim
    rw [List.pairwise_cons] at hsim
    obtain ⟨hhead, htail⟩ := hsim
    rw [List.pairwise_cons, List.pairwise_cons, ih htail]
    have hcomp : ∀ b ∈ rest, (responsesAreEqual r b = true ↔ r.Body.length = b.Body.length) := by
      intro b hb
      have hsr := responsesAreSimilar_statusCode (hhead b hb)
      rw [responsesAreEqual_iff]
      exact ⟨fun hx => hx.2.2, fun hx => ⟨hsr.1, hsr.2, hx⟩⟩
    constructor
    · rintro ⟨h1, h2⟩
      exact ⟨fun b hb => (hcomp b hb).1 (h1 b hb), h2⟩
    · rintro ⟨h1, h2⟩
      exact ⟨fun b hb => (hcomp b hb).2 (h1 b hb), h2⟩

/-- C4: when the baseline set passes the loose-consistency check, the
scan uses exact mode (`SameBody`, passed as `equalCheck` to every
`responseChanged` call) iff all pairwise body lengths of the baseline
observations are equal; the mode is derived once, inside
`makeInitialRequests`, from the baseline observations. -/
theorem scan_mode_exact_iff_baseline_lengths_equal (ed : List Nat → List Nat → Nat)
    (probe : Probe) (ctr : Nat)
    (h : (makeInitialRequests ed probe ctr).1.AreConsistent = true) :
    ((makeInitialRequests ed probe ctr).1.SameBody = true ↔
      List.Pairwise (fun a b => a.Body.length = b.Body.length)
        (makeInitialRequests ed probe ctr).1.Responses) := by
  rw [makeInitialRequests] at h ⊢
  simp only at h ⊢
  rw [baselineResponsesAreConsistent_iff] at h ⊢
  exact pairwise_equal_iff_pairwise_bodyLen ed (makeBaselines probe ctr numBaselines) h

/-- Witness for C4 at a concrete stable probe: the baselines are loosely
consistent and the mode is exact with all body lengths equal. -/
theorem scan_mode_exact_iff_baseline_lengths_equal_witness :
    (makeInitialRequests edZero probeStable 0).1.AreConsistent = true ∧
    ((makeInitialRequests edZero probeStable 0).1.SameBody = true ↔
      List.Pairwise (fun a b => a.Body.length = b.Body.length)
        (makeInitialRequests edZero probeStable 0).1.Responses) :=
  ⟨by decide, scan_mode_exact_iff_baseline_lengths_equal edZero probeStable 0 (by decide)⟩

/-- C7: a single-member candidate list is returned unconditionally with
no probe issued (the request counter is unchanged); a list of two or
more members splits into the two contiguous halves at `mid = len/2`,
each half is probed exactly once (left at the current request index,
right at the next), each half's observation is classified against the
baselines, the resolver recurses into exactly the halves classified
"changed" (possibly both), and unchanged halves contribute no
parameters. -/
theorem recursiveFilter_bisection_spec (ed : List Nat → List Nat → Nat) (probe : Probe)
    (initialResponses : InitialResponses) :
    (∀ (p : String) (ctr : Nat),
      recursiveFilter ed probe [p] initialResponses ctr = ([p], ctr)) ∧
    (∀ (params : List String) (ctr : Nat), 2 ≤ params.length →
      recursiveFilter ed probe params initialResponses ctr =
        (let left := params.take (params.length / 2)
         let right := params.drop (params.length / 2)
         let s1 :=
           if responseChanged ed initialResponses.Responses (probe ctr left)
               initialResponses.SameBody
           then recursiveFilter ed probe left initialResponses (ctr + 2) else ([], ctr + 2)
         let s2 :=
           if responseChanged ed initialResponses.Responses (probe (ctr + 1) right)
               initialResponses.SameBody
           then recursiveFilter ed probe right initialResponses s1.2 else ([], s1.2)
         (s1.1 ++ s2.1, s2.2))) := by
  constructor
  · intro p ctr
    rw [recursiveFilter]
    simp
  · intro params ctr h2
    rw [recursiveFilter, if_neg (by omega), if_neg (by omega)]

/-- Witness for C7: on a two-element list with a probe that always
provokes change, both halves are recursed into and both singletons are
returned, at the cost of exactly two probes. -/
theorem recursiveFilter_bisection_spec_witness :
    recursiveFilter edZero probeAlwaysChanged ["a"]
      (makeInitialRequests edZero probeStable 0).1 5 = (["a"], 5) ∧
    recursiveFilter edZero probeAlwaysChanged ["a", "b"]
      (makeInitialRequests edZero probeStable 0).1 0 = (["a", "b"], 2) := by
  have h := recursiveFilter_bisection_spec edZero probeAlwaysChanged
    (makeInitialRequests edZero probeStable 0).1
  refine ⟨h.1 "a" 5, ?_⟩
  rw [h.2 ["a", "b"] 0 (by decide)]
  rw [show List.take (["a", "b"].length / 2) ["a", "b"] = ["a"] from by decide]
  rw [show List.drop (["a", "b"].length / 2) ["a", "b"] = ["b"] from by decide]
  simp only []
  rw [if_pos (show responseChanged edZero (makeInitialRequests edZero probeStable 0).1.Responses
    (probeAlwaysChanged 0 ["a"]) (makeInitialRequests edZero probeStable 0).1.SameBody = true
    from by decide)]
  rw [h.1 "a"]
  rw [if_pos (show responseChanged edZero (makeInitialRequests edZero probeStable 0).1.Responses
    (probeAlwaysChanged (0 + 1) ["b"]) (makeInitialRequests edZero probeStable 0).1.SameBody =
      true from by decide)]
  rw [h.1 "b"]
  rfl

theorem recursiveFilter_mem_isolated (ed : List Nat → List Nat → Nat) (probe : Probe)
    (ir : InitialResponses) :
    ∀ (n : Nat) (params : List String), params.length ≤ n → ∀ (ctr : Nat) (p : String),
      p ∈ (recursiveFilter ed probe params ir ctr).1 → Isolated ed probe ir params ctr p := by
  intro n
  induction n with
  | zero =>
    intro params hlen ctr p hp
    have hnil : params = [] := List.eq_nil_of_length_eq_zero (by omega)
    subst hnil
    rw [recursiveFilter] at hp
    simp at hp
  | succ n ihn =>
    intro params hlen ctr p hp
    by_cases h1 : params.length = 1
    · obtain ⟨q, rfl⟩ : ∃ q, params = [q] := by
        rcases params with _ | ⟨q, rest⟩
        · simp at h1
        · rcases rest with _ | ⟨r, rest2⟩
          · exact ⟨q, rfl⟩
          · simp at h1
      rw [recursiveFilter] at hp
      simp at hp
      subst hp
      exact Isolated.single p ctr
    · by_cases h0 : params.length = 0
      · have hnil : params = [] := List.eq_nil_of_length_eq_zero h0
        subst hnil
        rw [recursiveFilter] at hp
        simp at hp
      · have h2 : 2 ≤ params.length := by omega
        rw [recursiveFilter, if_neg h1, if_neg h0] at hp
        simp only [] at hp
        rcases List.mem_append.1 hp with hL | hR
        · by_cases hcl : responseChanged ed ir.Responses
              (probe ctr (params.take (params.length / 2))) ir.SameBody = true
          · rw [if_pos hcl] at hL
            have hlt : (params.take (params.length / 2)).length ≤ n := by
              rw [List.length_take]
              omega
            exact Isolated.goLeft params ctr p h2 hcl (ihn _ hlt _ _ hL)
          · rw [if_neg hcl] at hL
            simp at hL
        · by_cases hcr : responseChanged ed ir.Responses
              (probe (ctr + 1) (params.drop (params.length / 2))) ir.SameBody = true
          · rw [if_pos hcr] at hR
            have hlt : (params.drop (params.length / 2)).length ≤ n := by
              rw [List.length_drop]
              omega
            exact Isolated.goRight params ctr _ p h2 hcr (ihn _ hlt _ _ hR)
          · rw [if_neg hcr] at hR
            simp at hR

theorem mem_insertParam (acc : List String) (q p : String) :
    p ∈ insertParam acc q ↔ p ∈ acc ∨ p = q := by
  by_cases hq : q ∈ acc
  · simp only [insertParam, if_pos hq]
    constructor
    · exact Or.inl
    · rintro (h | rfl)
      · exact h
      · exact hq
  · simp [insertParam, if_neg hq]

theorem insertParam_nodup (acc : List String) (q : String) (h : acc.Nodup) :
    (insertParam acc q).Nodup := by
  by_cases hq : q ∈ acc
  · simpa [insertParam, if_pos hq] using h
  · simp [insertParam, if_neg hq, List.nodup_append, h, hq]

theorem foldl_insertParam_nodup (xs : List String) :
    ∀ acc : List String, acc.Nodup → (xs.foldl insertParam acc).Nodup := by
  induction xs with
  | nil => intro acc h; exact h
  | cons x xs ih =>
    intro acc h
    exact ih _ (insertParam_nodup acc x h)

theorem foldl_insertParam_mem (xs : List String) :
    ∀ (acc : List String) (p : String), p ∈ xs.foldl insertParam acc → p ∈ acc ∨ p ∈ xs := by
  induction xs with
  | nil =>
    intro acc p h
    exact Or.inl h
  | cons x xs ih =>
    intro acc p h
    rcases ih _ p h with hIn | hxs
    · rcases (mem_insertParam acc x p).1 hIn with h1 | h1
      · exact Or.inl h1
      · exact Or.inr (by rw [h1]; exact List.mem_cons_self x xs)
    · exact Or.inr (List.mem_cons_of_mem x hxs)

theorem discover_fold_invariant (ed : List Nat → List Nat → Nat) (probe : Probe)
    (ir : InitialResponses) (validAll : List (List String)) :
    ∀ (vparts : List (List String)), (∀ v ∈ vparts, v ∈ validAll) →
      ∀ acc : List String × Nat,
        acc.1.Nodup →
        (∀ p ∈ acc.1, ∃ part c2, part ∈ validAll ∧ Isolated ed probe ir part c2 p) →
        ((vparts.foldl
            (fun a part =>
              let r := recursiveFilter ed probe part ir a.2
              (r.1.foldl insertParam a.1, r.2)) acc).1.Nodup ∧
          ∀ p ∈ (vparts.foldl
            (fun a part =>
              let r := recursiveFilter ed probe part ir a.2
              (r.1.foldl insertParam a.1, r.2)) acc).1,
            ∃ part c2, part ∈ validAll ∧ Isolated ed probe ir part c2 p) := by
  intro vparts
  induction vparts with
  | nil =>
    intro _ acc h1 h2
    exact ⟨h1, h2⟩
  | cons part rest ih =>
    intro hsub acc h1 h2
    simp only [List.foldl_cons]
    refine ih (fun v hv => hsub v (List.mem_cons_of_mem part hv)) _
      (foldl_insertParam_nodup _ _ h1) ?_
    intro p hp
    rcases foldl_insertParam_mem _ _ p hp with hacc | hnew
    · exact h2 p hacc
    · exact ⟨part, acc.2, hsub part (List.mem_cons_self part rest),
        recursiveFilter_mem_isolated ed probe ir part.length part (le_refl _) acc.2 p hnew⟩

/-- C8: the discovered-parameter list contains each name at most once
(deduplication under the aggregation lock), and every name in it comes
from a chunk that survived the chunk filter and was isolated down to a
single-element candidate list through "changed" classifications — never
by accepting a whole multi-element chunk. -/
theorem discoverValidParams_dedup_and_isolation (ed : List Nat → List Nat → Nat)
    (probe : Probe) (params : List String) (ir : InitialResponses) (chunkSize ctr : Nat) :
    (discoverValidParams ed probe params ir chunkSize ctr).1.Nodup ∧
    ∀ p ∈ (discoverValidParams ed probe params ir chunkSize ctr).1,
      ∃ part c2,
        part ∈ (filterParts ed probe (chunkParamsN params chunkSize) ir ctr).1 ∧
        Isolated ed probe ir part c2 p := by
  rw [discoverValidParams]
  simp only []
  exact discover_fold_invariant ed probe ir
    (filterParts ed probe (chunkParamsN params chunkSize) ir ctr).1
    (filterParts ed probe (chunkParamsN params chunkSize) ir ctr).1
    (fun v hv => hv)
    ([], (filterParts ed probe (chunkParamsN params chunkSize) ir ctr).2)
    List.nodup_nil
    (fun p hp => absurd hp (List.not_mem_nil p))

/-- Witness for C8 at concrete inputs. -/
theorem discoverValidParams_dedup_and_isolation_witness :
    (discoverValidParams edZero probeAlwaysChanged ["a", "b", "c"]
      (makeInitialRequests edZero probeStable 0).1 2 3).1.Nodup ∧
    ∀ p ∈ (discoverValidParams edZero probeAlwaysChanged ["a", "b", "c"]
      (makeInitialRequests edZero probeStable 0).1 2 3).1,
      ∃ part c2,
        part ∈ (filterParts edZero probeAlwaysChanged (chunkParamsN ["a", "b", "c"] 2)
          (makeInitialRequests edZero probeStable 0).1 3).1 ∧
        Isolated edZero probeAlwaysChanged (makeInitialRequests edZero probeStable 0).1
          part c2 p :=
  discoverValidParams_dedup_and_isolation edZero probeAlwaysChanged ["a", "b", "c"]
    (makeInitialRequests edZero probeStable 0).1 2 3

/-- Witness for C3 at a concrete baseline list and candidate. -/
theorem responseChanged_iff_differs_from_all_baselines_witness :
    responseChanged edZero [baseOK] zeroObservation true = true ↔
      ∀ b ∈ [baseOK],
        (if true then responsesAreEqual b zeroObservation
         else responsesAreSimilar edZero b zeroObservation) = false :=
  responseChanged_iff_differs_from_all_baselines edZero [baseOK] zeroObservation true

/-- Witness for C5 at a concrete pair of observations. -/
theorem responsesAreEqual_spec_witness :
    (responsesAreEqual baseOK zeroObservation = true ↔
      baseOK.StatusCode = zeroObservation.StatusCode ∧
        baseOK.Reflections = zeroObservation.Reflections ∧
        baseOK.Body.length = zeroObservation.Body.length) ∧
    responsesAreEqual baseOK baseOK = true ∧
    responsesAreEqual baseOK zeroObservation = responsesAreEqual zeroObservation baseOK :=
  responsesAreEqual_spec baseOK zeroObservation

/-- Witness for C6 at a concrete pair of observations. -/
theorem responsesAreSimilar_spec_witness :
    (responsesAreSimilar edZero baseOK zeroObservation = true ↔
      baseOK.StatusCode = zeroObservation.StatusCode ∧
        baseOK.Reflections = zeroObservation.Reflections ∧
        (9 / 10 : ℚ) ≤
          (if baseOK.Body.length = zeroObservation.Body.length then 1
           else computeSimilarity edZero baseOK.Body zeroObservation.Body)) ∧
    (baseOK.Body.length = zeroObservation.Body.length →
      ∀ ed' : List Nat → List Nat → Nat,
        responsesAreSimilar ed' baseOK zeroObservation =
          responsesAreSimilar edZero baseOK zeroObservation) ∧
    (max baseOK.Body.length zeroObservation.Body.length = 0 →
      computeSimilarity edZero baseOK.Body zeroObservation.Body = 1) ∧
    (baseOK.Body.length ≠ zeroObservation.Body.length →
      computeSimilarity edZero baseOK.Body zeroObservation.Body =
        1 - (edZero baseOK.Body zeroObservation.Body : ℚ) /
          (max baseOK.Body.length zeroObservation.Body.length : ℚ)) :=
  responsesAreSimilar_spec edZero baseOK zeroObservation
